import Mathlib

/-!
Shallow embedding of the DRM display-device manager (`DrmDevice.cpp`) and
verification of its specified properties.

Modelling conventions:
* `uint32_t` identifiers and the in-use CRTC bitmask are modelled as `Nat`;
  the mask update `mUsedCrtcs |= (1 << pipe)` becomes `||| 2 ^ pipe` and
  `mUsedCrtcs &= ~(1 << pipe)` becomes `Nat.ldiff · (2 ^ pipe)` (clearing
  bit `pipe`), which agrees with the 32-bit semantics wherever the C++
  shift is defined.
* The file descriptor `mFd` is an `Int`; `mFd < 0` is the invalid handle.
* The kernel resource query `drmModeGetResources` is a parameter: an
  `Option DrmResources` (`none` models a failed query).
* Effectful calls (`display->report()`) are modelled by returning the list
  of reported display identifiers, in call order, alongside the new state.
-/

/-- Modelled from the spec: the output entity (external collaborator, §6 of the
spec) exposes `connected()`, `internal()` and a stable identifier `id()`;
its implementation lives outside `DrmDevice.cpp`, so it is abstracted to a
record of those observations. -/
structure DrmDisplay where
  id : Nat
  connected : Bool
  internal : Bool
deriving Repr, DecidableEq

/-- Modelled from the spec: an output entity is constructible from
(device reference, connector identifier); its stable identifier is the
connector identifier, and it has not yet queried any connection state. -/
def mkDisplay (connector : Nat) : DrmDisplay :=
  { id := connector, connected := false, internal := false }

/-- State of `DrmDevice`. Field names follow `DrmDevice.h`. The registry
`mDisplays` is modelled from the spec as an association list from connector
identifier to output entity, kept in registry iteration order; the hotplug
thread member carries no modelled state. Initial values of `mUsedCrtcs` and
`mPrimaryDisplay` are 0 (absent), and `mCallback` is absent. -/
structure DrmDevice where
  mFd : Int
  mCrtcs : List Nat
  mUsedCrtcs : Nat
  mDisplays : List (Nat × DrmDisplay)
  mPrimaryDisplay : Nat
  mCallback : Bool
deriving Repr, DecidableEq

/-- Constructor `DrmDevice::DrmDevice(int fd)`: stores the descriptor; all
other members start at their default (empty/absent) values. -/
def mkDevice (fd : Int) : DrmDevice :=
  { mFd := fd, mCrtcs := [], mUsedCrtcs := 0, mDisplays := [],
    mPrimaryDisplay := 0, mCallback := false }

/-- Result of the kernel resource query (`drmModeGetResources`): the ordered
list of CRTC identifiers and the ordered list of connector identifiers. -/
structure DrmResources where
  crtcs : List Nat
  connectors : List Nat
deriving Repr, DecidableEq

/-- `DrmDevice::getConnectedDisplay`: look the connector up in the registry;
return the display only when it is present and connected, else null. -/
def getConnectedDisplay (d : DrmDevice) (connector : Nat) : Option DrmDisplay :=
  match d.mDisplays.find? (fun p => p.1 == connector) with
  | none => none
  | some p => if p.2.connected then some p.2 else none

/-- `DrmDevice::reserveCrtc`: with `mask = 1 << pipe`, if `pipe` is within the
pool bounds and `mUsedCrtcs & mask` is zero, set the mask bit and return
`mCrtcs[pipe]`; otherwise return the sentinel 0 with no state change. -/
def reserveCrtc (d : DrmDevice) (pipe : Nat) : Nat × DrmDevice :=
  let mask := 2 ^ pipe
  if pipe < d.mCrtcs.length ∧ d.mUsedCrtcs &&& mask = 0 then
    (d.mCrtcs.getD pipe 0, { d with mUsedCrtcs := d.mUsedCrtcs ||| mask })
  else
    (0, d)

/-- `DrmDevice::freeCrtc`: if `pipe` is within the pool bounds, clear bit
`pipe` of `mUsedCrtcs` (`mUsedCrtcs &= ~(1 << pipe)`); otherwise do nothing. -/
def freeCrtc (d : DrmDevice) (pipe : Nat) : DrmDevice :=
  if pipe < d.mCrtcs.length then
    { d with mUsedCrtcs := Nat.ldiff d.mUsedCrtcs (2 ^ pipe) }
  else
    d

/-- One step of the `mDisplays.insert({c, make_unique<DrmDisplay>(*this, c)})`
loop in `DrmDevice::initialize`: C++ map insertion does not overwrite, so an
already-present key leaves the registry unchanged. -/
def insertDisplay (reg : List (Nat × DrmDisplay)) (c : Nat) : List (Nat × DrmDisplay) :=
  if reg.any (fun p => p.1 == c) then reg else reg ++ [(c, mkDisplay c)]

/-- `DrmDevice::initialize` (named `initializeDev` here): fail on an invalid
descriptor or a failed resource query, leaving the state untouched; on
success store the returned CRTC list verbatim and insert one display per
returned connector. -/
def initializeDev (res : Option DrmResources) (d : DrmDevice) : Bool × DrmDevice :=
  if d.mFd < 0 then (false, d)
  else
    match res with
    | none => (false, d)
    | some r =>
      (true, { d with mCrtcs := r.crtcs,
                      mDisplays := r.connectors.foldl insertDisplay d.mDisplays })

/-- `DrmDevice::update`: refresh every registered display in place. The
per-display refresh `DrmDisplay::update()` is an external collaborator, so it
is a parameter `upd`; the registry keys and membership are not changed. -/
def updateDev (upd : DrmDisplay → DrmDisplay) (d : DrmDevice) : DrmDevice :=
  { d with mDisplays := d.mDisplays.map (fun p => (p.1, upd p.2)) }

/-- Primary-selection part of `DrmDevice::enable`: report the first connected
internal display if any, else the first connected display of any kind; record
the reported display's identifier as `mPrimaryDisplay`. Returns the reported
identifiers (in call order) with the new state. -/
def enableSelect (d : DrmDevice) : List Nat × DrmDevice :=
  match d.mDisplays.find? (fun p => p.2.connected && p.2.internal) with
  | some p => ([p.2.id], { d with mPrimaryDisplay := p.2.id })
  | none =>
    match d.mDisplays.find? (fun p => p.2.connected) with
    | some p => ([p.2.id], { d with mPrimaryDisplay := p.2.id })
    | none => ([], d)

/-- `DrmDevice::enable` (named `enableDev` here): run an update pass, store
the callback reference, then run primary selection. Enabling the hotplug
thread is an external effect with no modelled state. -/
def enableDev (upd : DrmDisplay → DrmDisplay) (d : DrmDevice) : List Nat × DrmDevice :=
  enableSelect { updateDev upd d with mCallback := true }

/-- `DrmDevice::reportExternal`: a no-op when no primary is marked; otherwise
report every connected display whose identifier differs from the stored
primary, then clear the primary marker. -/
def reportExternal (d : DrmDevice) : List Nat × DrmDevice :=
  if d.mPrimaryDisplay = 0 then ([], d)
  else
    ((d.mDisplays.filter (fun p => p.2.id != d.mPrimaryDisplay && p.2.connected)).map
        (fun p => p.2.id),
     { d with mPrimaryDisplay := 0 })

/-- A call history against the CRTC pool: the two mutating operations. -/
inductive CrtcOp where
  | reserve (pipe : Nat)
  | free (pipe : Nat)
deriving Repr, DecidableEq

/-- Apply one pool operation to the device state. -/
def applyCrtcOp (d : DrmDevice) : CrtcOp → DrmDevice
  | CrtcOp.reserve p => (reserveCrtc d p).2
  | CrtcOp.free p => freeCrtc d p

/-- Apply a sequence of pool operations, left to right. -/
def applyCrtcOps (d : DrmDevice) (ops : List CrtcOp) : DrmDevice :=
  ops.foldl applyCrtcOp d

/-- Number of set bits of a natural number (popcount of the in-use mask). -/
def popcount : Nat → Nat
  | 0 => 0
  | n + 1 => popcount ((n + 1) / 2) + (n + 1) % 2
decreasing_by exact Nat.div_lt_self (Nat.succ_pos n) (by decide)

/-- The bitmask invariant: every set bit of the in-use mask is a valid pool
index. -/
def crtcInv (d : DrmDevice) : Prop :=
  ∀ i, d.mUsedCrtcs.testBit i = true → i < d.mCrtcs.length

/-! ### Bitmask helper lemmas -/

lemma and_two_pow_eq_zero (x p : Nat) : x &&& 2 ^ p = 0 ↔ x.testBit p = false := by
  rw [Nat.and_two_pow]
  cases h : x.testBit p
  · simp
  · simp [Nat.pow_eq_zero]

lemma testBit_ldiff_two_pow_self (x p : Nat) :
    (Nat.ldiff x (2 ^ p)).testBit p = false := by
  rw [Nat.testBit_ldiff, Nat.testBit_two_pow_self]
  simp

lemma testBit_ldiff_two_pow_of_ne (x : Nat) {p i : Nat} (h : i ≠ p) :
    (Nat.ldiff x (2 ^ p)).testBit i = x.testBit i := by
  rw [Nat.testBit_ldiff, Nat.testBit_two_pow_of_ne (fun hpi => h hpi.symm)]
  simp

lemma ldiff_two_pow_of_testBit_false {x p : Nat} (h : x.testBit p = false) :
    Nat.ldiff x (2 ^ p) = x := by
  apply Nat.eq_of_testBit_eq
  intro i
  by_cases hip : i = p
  · rw [hip, testBit_ldiff_two_pow_self, h]
  · exact testBit_ldiff_two_pow_of_ne x hip

/-- Concrete device with a two-element CRTC pool and a clear in-use mask. -/
def dPool : DrmDevice :=
  { mFd := 3, mCrtcs := [7, 8], mUsedCrtcs := 0, mDisplays := [],
    mPrimaryDisplay := 0, mCallback := false }

/-- Concrete device with a two-element CRTC pool and both mask bits set. -/
def dFree : DrmDevice :=
  { mFd := 3, mCrtcs := [7, 8], mUsedCrtcs := 3, mDisplays := [],
    mPrimaryDisplay := 0, mCallback := false }

/-- C1: `reserveCrtc p` succeeds exactly when `p` is within the pool bounds and
bit `p` of the in-use mask is clear; on success it sets bit `p` and returns the
engine identifier at position `p` of the pool, and on failure it returns the
sentinel 0 and leaves the whole state (pool and mask included) unchanged. -/
theorem reserveCrtc_spec (d : DrmDevice) (p : Nat) :
    (p < d.mCrtcs.length ∧ d.mUsedCrtcs.testBit p = false →
      reserveCrtc d p =
        (d.mCrtcs.getD p 0, { d with mUsedCrtcs := d.mUsedCrtcs ||| 2 ^ p }) ∧
      (reserveCrtc d p).2.mUsedCrtcs.testBit p = true) ∧
    (¬(p < d.mCrtcs.length ∧ d.mUsedCrtcs.testBit p = false) →
      reserveCrtc d p = (0, d)) := by
  constructor
  · rintro ⟨h1, h2⟩
    have hg : p < d.mCrtcs.length ∧ d.mUsedCrtcs &&& 2 ^ p = 0 :=
      ⟨h1, (and_two_pow_eq_zero _ _).mpr h2⟩
    refine ⟨by simp [reserveCrtc, hg], ?_⟩
    simp [reserveCrtc, hg, Nat.testBit_lor, Nat.testBit_two_pow_self]
  · intro h
    have hg : ¬(p < d.mCrtcs.length ∧ d.mUsedCrtcs &&& 2 ^ p = 0) := by
      rintro ⟨h1, h2⟩
      exact h ⟨h1, (and_two_pow_eq_zero _ _).mp h2⟩
    simp [reserveCrtc, hg]

/-- Witness for C1: on the concrete pool `[7, 8]` with a clear mask,
reserving pipe 0 sets bit 0 and yields engine 7. -/
theorem reserveCrtc_spec_witness :
    reserveCrtc dPool 0 =
      (dPool.mCrtcs.getD 0 0, { dPool with mUsedCrtcs := dPool.mUsedCrtcs ||| 2 ^ 0 }) ∧
    (reserveCrtc dPool 0).2.mUsedCrtcs.testBit 0 = true :=
  (reserveCrtc_spec dPool 0).1 (by decide)

/-- C3: `freeCrtc p` leaves bit `p` clear afterwards when `p` is within the
pool bounds (touching no other bit and neither the pool nor the registry), is
a no-op when `p` is out of bounds, and on an already-clear bit changes
nothing; it signals no error in any of these cases (it is total). -/
theorem freeCrtc_spec (d : DrmDevice) (p : Nat) :
    (p < d.mCrtcs.length →
      (freeCrtc d p).mUsedCrtcs.testBit p = false ∧
      (∀ i, i ≠ p → (freeCrtc d p).mUsedCrtcs.testBit i = d.mUsedCrtcs.testBit i) ∧
      (freeCrtc d p).mCrtcs = d.mCrtcs ∧
      (freeCrtc d p).mDisplays = d.mDisplays) ∧
    (¬ p < d.mCrtcs.length → freeCrtc d p = d) ∧
    (d.mUsedCrtcs.testBit p = false → freeCrtc d p = d) := by
  refine ⟨fun h => ?_, fun h => ?_, fun h => ?_⟩
  · refine ⟨?_, fun i hi => ?_, ?_, ?_⟩
    · simp [freeCrtc, h, testBit_ldiff_two_pow_self]
    · simp [freeCrtc, h, testBit_ldiff_two_pow_of_ne _ hi]
    · simp [freeCrtc, h]
    · simp [freeCrtc, h]
  · simp [freeCrtc, h]
  · by_cases hp : p < d.mCrtcs.length
    · simp [freeCrtc, hp, ldiff_two_pow_of_testBit_false h]
    · simp [freeCrtc, hp]

/-- Witness for C3: on the concrete device with mask `0b11`, freeing pipe 0
clears bit 0, keeps bit 1, and touches neither the pool nor the registry. -/
theorem freeCrtc_spec_witness :
    (freeCrtc dFree 0).mUsedCrtcs.testBit 0 = false ∧
    (∀ i, i ≠ 0 → (freeCrtc dFree 0).mUsedCrtcs.testBit i = dFree.mUsedCrtcs.testBit i) ∧
    (freeCrtc dFree 0).mCrtcs = dFree.mCrtcs ∧
    (freeCrtc dFree 0).mDisplays = dFree.mDisplays :=
  (freeCrtc_spec dFree 0).1 (by decide)

/-! ### Invariant preservation for the CRTC pool (C2) -/

lemma lor_two_pow_bits {x n p : Nat} (hx : ∀ i, x.testBit i = true → i < n)
    (hp : p < n) : ∀ i, (x ||| 2 ^ p).testBit i = true → i < n := by
  intro i hi
  rw [Nat.testBit_lor] at hi
  rcases Bool.or_eq_true_iff.mp hi with h | h
  · exact hx i h
  · by_cases hip : p = i
    · exact hip ▸ hp
    · rw [Nat.testBit_two_pow_of_ne hip] at h
      cases h

lemma ldiff_bits {x n m : Nat} (hx : ∀ i, x.testBit i = true → i < n) :
    ∀ i, (Nat.ldiff x m).testBit i = true → i < n := by
  intro i hi
  rw [Nat.testBit_ldiff] at hi
  exact hx i (Bool.and_eq_true_iff.mp hi).1

lemma crtcInv_reserveCrtc (d : DrmDevice) (p : Nat) (h : crtcInv d) :
    crtcInv (reserveCrtc d p).2 := by
  by_cases hg : p < d.mCrtcs.length ∧ d.mUsedCrtcs &&& 2 ^ p = 0
  · have he : (reserveCrtc d p).2 = { d with mUsedCrtcs := d.mUsedCrtcs ||| 2 ^ p } := by
      simp [reserveCrtc, hg]
    rw [he]
    exact lor_two_pow_bits h hg.1
  · have he : (reserveCrtc d p).2 = d := by simp [reserveCrtc, hg]
    rw [he]
    exact h

lemma crtcInv_freeCrtc (d : DrmDevice) (p : Nat) (h : crtcInv d) :
    crtcInv (freeCrtc d p) := by
  by_cases hp : p < d.mCrtcs.length
  · have he : freeCrtc d p = { d with mUsedCrtcs := Nat.ldiff d.mUsedCrtcs (2 ^ p) } := by
      simp [freeCrtc, hp]
    rw [he]
    exact ldiff_bits h
  · have he : freeCrtc d p = d := by simp [freeCrtc, hp]
    rw [he]
    exact h

lemma crtcInv_applyCrtcOp (d : DrmDevice) (op : CrtcOp) (h : crtcInv d) :
    crtcInv (applyCrtcOp d op) := by
  cases op with
  | reserve p => exact crtcInv_reserveCrtc d p h
  | free p => exact crtcInv_freeCrtc d p h

lemma crtcInv_applyCrtcOps (d : DrmDevice) (ops : List CrtcOp) (h : crtcInv d) :
    crtcInv (applyCrtcOps d ops) := by
  induction ops generalizing d with
  | nil => exact h
  | cons op rest ih => exact ih _ (crtcInv_applyCrtcOp d op h)

lemma popcount_zero : popcount 0 = 0 := by
  rw [popcount]

lemma popcount_succ (n : Nat) :
    popcount (n + 1) = popcount ((n + 1) / 2) + (n + 1) % 2 := by
  rw [popcount]

lemma popcount_le (n x : Nat) (h : x < 2 ^ n) : popcount x ≤ n := by
  induction n generalizing x with
  | zero =>
    have hx : x = 0 := Nat.lt_one_iff.mp h
    rw [hx, popcount_zero]
  | succ n ih =>
    cases x with
    | zero =>
      rw [popcount_zero]
      exact Nat.zero_le _
    | succ m =>
      rw [popcount_succ]
      have h2 : (m + 1) / 2 < 2 ^ n := by
        apply Nat.div_lt_of_lt_mul
        rw [Nat.mul_comm, ← Nat.pow_succ]
        exact h
      have h3 := ih _ h2
      have h4 : (m + 1) % 2 < 2 := Nat.mod_lt _ (by decide)
      omega

lemma lt_two_pow_of_bits {x n : Nat} (h : ∀ i, x.testBit i = true → i < n) :
    x < 2 ^ n := by
  apply Nat.lt_pow_two_of_testBit
  intro i hi
  cases ht : x.testBit i with
  | false => rfl
  | true => exact absurd (h i ht) (Nat.not_lt.mpr hi)

/-- C2: starting from a clear in-use mask, after any sequence of `reserveCrtc`
and `freeCrtc` calls the number of set mask bits never exceeds the pool size,
and every set bit is the index of an engine within the pool bounds. -/
theorem crtcMask_inv (d : DrmDevice) (ops : List CrtcOp) (h0 : d.mUsedCrtcs = 0) :
    popcount (applyCrtcOps d ops).mUsedCrtcs ≤ (applyCrtcOps d ops).mCrtcs.length ∧
    ∀ i, (applyCrtcOps d ops).mUsedCrtcs.testBit i = true →
      i < (applyCrtcOps d ops).mCrtcs.length := by
  have hinv : crtcInv d := by
    intro i hi
    rw [h0, Nat.zero_testBit] at hi
    cases hi
  have hinv2 := crtcInv_applyCrtcOps d ops hinv
  exact ⟨popcount_le _ _ (lt_two_pow_of_bits hinv2), hinv2⟩

/-- Witness for C2: the invariant after the concrete call sequence
reserve 0, reserve 1, free 0, reserve 5 on the two-engine pool. -/
theorem crtcMask_inv_witness :
    popcount (applyCrtcOps dPool
        [CrtcOp.reserve 0, CrtcOp.reserve 1, CrtcOp.free 0, CrtcOp.reserve 5]).mUsedCrtcs ≤
      (applyCrtcOps dPool
        [CrtcOp.reserve 0, CrtcOp.reserve 1, CrtcOp.free 0, CrtcOp.reserve 5]).mCrtcs.length ∧
    ∀ i, (applyCrtcOps dPool
        [CrtcOp.reserve 0, CrtcOp.reserve 1, CrtcOp.free 0, CrtcOp.reserve 5]).mUsedCrtcs.testBit i = true →
      i < (applyCrtcOps dPool
        [CrtcOp.reserve 0, CrtcOp.reserve 1, CrtcOp.free 0, CrtcOp.reserve 5]).mCrtcs.length :=
  crtcMask_inv dPool [CrtcOp.reserve 0, CrtcOp.reserve 1, CrtcOp.free 0, CrtcOp.reserve 5] rfl

/-! ### Registry lemmas for initialization (C4, C8, C9) -/

lemma mem_insertDisplay {reg : List (Nat × DrmDisplay)} {x : Nat × DrmDisplay}
    (c : Nat) (h : x ∈ reg) : x ∈ insertDisplay reg c := by
  unfold insertDisplay
  split
  · exact h
  · exact List.mem_append_left _ h

lemma not_key_of_not_any {reg : List (Nat × DrmDisplay)} {c : Nat}
    (h : ¬ reg.any (fun p => p.1 == c) = true) : c ∉ reg.map Prod.fst := by
  intro hc
  rcases List.mem_map.mp hc with ⟨p, hp, he⟩
  exact h (List.any_eq_true.mpr ⟨p, hp, by rw [he]; exact beq_self_eq_true c⟩)

lemma keys_mem_insertDisplay (reg : List (Nat × DrmDisplay)) (c : Nat) :
    c ∈ (insertDisplay reg c).map Prod.fst := by
  unfold insertDisplay
  split
  next hany =>
    rcases List.any_eq_true.mp hany with ⟨p, hp, he⟩
    have hpc : p.1 = c := beq_iff_eq.mp he
    exact hpc ▸ List.mem_map_of_mem Prod.fst hp
  next =>
    rw [List.map_append]
    exact List.mem_append_right _ (by simp)

lemma key_subset_insertDisplay {reg : List (Nat × DrmDisplay)} {k : Nat} (c : Nat)
    (h : k ∈ reg.map Prod.fst) : k ∈ (insertDisplay reg c).map Prod.fst := by
  unfold insertDisplay
  split
  · exact h
  · rw [List.map_append]
    exact List.mem_append_left _ h

lemma keys_nodup_insertDisplay {reg : List (Nat × DrmDisplay)} (c : Nat)
    (h : (reg.map Prod.fst).Nodup) : ((insertDisplay reg c).map Prod.fst).Nodup := by
  unfold insertDisplay
  split
  · exact h
  next hany =>
    rw [List.map_append]
    refine List.Nodup.append h (List.nodup_singleton c) ?_
    intro a ha hb
    rw [List.map_singleton, List.mem_singleton] at hb
    have hb2 : a = c := hb
    exact not_key_of_not_any hany (hb2 ▸ ha)

lemma mem_foldl_insertDisplay {reg : List (Nat × DrmDisplay)} {x : Nat × DrmDisplay}
    (cs : List Nat) (h : x ∈ reg) : x ∈ cs.foldl insertDisplay reg := by
  induction cs generalizing reg with
  | nil => exact h
  | cons c rest ih => exact ih (mem_insertDisplay c h)

lemma key_mem_foldl_insertDisplay {reg : List (Nat × DrmDisplay)} {k : Nat}
    (cs : List Nat) (h : k ∈ reg.map Prod.fst) :
    k ∈ (cs.foldl insertDisplay reg).map Prod.fst := by
  induction cs generalizing reg with
  | nil => exact h
  | cons c rest ih => exact ih (key_subset_insertDisplay c h)

lemma keys_nodup_foldl_insertDisplay {reg : List (Nat × DrmDisplay)}
    (cs : List Nat) (h : (reg.map Prod.fst).Nodup) :
    ((cs.foldl insertDisplay reg).map Prod.fst).Nodup := by
  induction cs generalizing reg with
  | nil => exact h
  | cons c rest ih => exact ih (keys_nodup_insertDisplay c h)

lemma mem_keys_foldl_of_mem {reg : List (Nat × DrmDisplay)} {c : Nat}
    (cs : List Nat) (hc : c ∈ cs) :
    c ∈ (cs.foldl insertDisplay reg).map Prod.fst := by
  induction cs generalizing reg with
  | nil => cases hc
  | cons a rest ih =>
    rcases List.mem_cons.mp hc with h | h
    · exact h ▸ key_mem_foldl_insertDisplay rest (keys_mem_insertDisplay reg c)
    · exact ih h

lemma fresh_mem_foldl_insertDisplay {reg : List (Nat × DrmDisplay)} {c : Nat}
    (cs : List Nat) (hc : c ∈ cs) (hnk : c ∉ reg.map Prod.fst) :
    (c, mkDisplay c) ∈ cs.foldl insertDisplay reg := by
  induction cs generalizing reg with
  | nil => cases hc
  | cons a rest ih =>
    by_cases hac : a = c
    · subst hac
      have he : insertDisplay reg a = reg ++ [(a, mkDisplay a)] := by
        unfold insertDisplay
        rw [if_neg]
        intro hany
        rcases List.any_eq_true.mp hany with ⟨p, hp, hbe⟩
        exact hnk ((beq_iff_eq.mp hbe) ▸ List.mem_map_of_mem Prod.fst hp)
      rw [List.foldl_cons, he]
      exact mem_foldl_insertDisplay rest (List.mem_append_right _ (List.mem_singleton.mpr rfl))
    · rcases List.mem_cons.mp hc with h | h
      · exact absurd h.symm hac
      · refine ih h ?_
        unfold insertDisplay
        split
        · exact hnk
        · rw [List.map_append]
          intro hm
          rcases List.mem_append.mp hm with hm | hm
          · exact hnk hm
          · rw [List.map_singleton, List.mem_singleton] at hm
            exact hac hm.symm

/-- Concrete resource-query result used by the initialization witnesses. -/
def rInit : DrmResources := { crtcs := [7, 8], connectors := [10, 11] }

/-- C4: whenever `initialize` succeeds (valid descriptor, resource query
answered), the registry holds exactly one entry keyed by each connector
identifier the query returned, and the pool equals the returned engine
identifier list verbatim (same elements, same order). -/
theorem initializeDev_success (r : DrmResources) (d : DrmDevice)
    (hfd : 0 ≤ d.mFd) (hnd : (d.mDisplays.map Prod.fst).Nodup) :
    (initializeDev (some r) d).1 = true ∧
    (initializeDev (some r) d).2.mCrtcs = r.crtcs ∧
    ∀ c ∈ r.connectors,
      ((initializeDev (some r) d).2.mDisplays.map Prod.fst).count c = 1 := by
  have hfd2 : ¬ d.mFd < 0 := not_lt.mpr hfd
  refine ⟨by simp [initializeDev, hfd2], by simp [initializeDev, hfd2], ?_⟩
  intro c hc
  have he : (initializeDev (some r) d).2.mDisplays
      = r.connectors.foldl insertDisplay d.mDisplays := by
    simp [initializeDev, hfd2]
  rw [he]
  exact List.count_eq_one_of_mem
    (keys_nodup_foldl_insertDisplay _ hnd) (mem_keys_foldl_of_mem _ hc)

/-- Witness for C4: initializing a fresh device against the query result
`{crtcs := [7, 8], connectors := [10, 11]}`. -/
theorem initializeDev_success_witness :
    (initializeDev (some rInit) (mkDevice 3)).1 = true ∧
    (initializeDev (some rInit) (mkDevice 3)).2.mCrtcs = rInit.crtcs ∧
    ∀ c ∈ rInit.connectors,
      ((initializeDev (some rInit) (mkDevice 3)).2.mDisplays.map Prod.fst).count c = 1 :=
  initializeDev_success rInit (mkDevice 3) (by decide) (by decide)

/-- C8: with an invalid descriptor or a failed resource query, `initialize`
returns failure and leaves the state untouched; a manager that never had a
successful `initialize` therefore still shows an empty registry and pool. -/
theorem initializeDev_failure (res : Option DrmResources) (d : DrmDevice)
    (h : d.mFd < 0 ∨ res = none) :
    initializeDev res d = (false, d) ∧
    (d.mDisplays = [] → (initializeDev res d).2.mDisplays = []) ∧
    (d.mCrtcs = [] → (initializeDev res d).2.mCrtcs = []) := by
  have he : initializeDev res d = (false, d) := by
    rcases h with h | h
    · simp [initializeDev, h]
    · subst h
      by_cases hf : d.mFd < 0 <;> simp [initializeDev, hf]
  exact ⟨he, fun h2 => by rw [he]; exact h2, fun h2 => by rw [he]; exact h2⟩

/-- Witness for C8: a device whose open failed (descriptor -1) refuses to
initialize even against a successful query and keeps its empty state. -/
theorem initializeDev_failure_witness :
    initializeDev (some rInit) (mkDevice (-1)) = (false, mkDevice (-1)) ∧
    ((mkDevice (-1)).mDisplays = [] →
      (initializeDev (some rInit) (mkDevice (-1))).2.mDisplays = []) ∧
    ((mkDevice (-1)).mCrtcs = [] →
      (initializeDev (some rInit) (mkDevice (-1))).2.mCrtcs = []) :=
  initializeDev_failure (some rInit) (mkDevice (-1)) (Or.inl (by decide))

/-- Display already registered under connector 5 before a re-initialization. -/
def oldDisp : DrmDisplay := { id := 5, connected := true, internal := false }

/-- Device state holding `oldDisp` under key 5, as left by a first
initialization followed by an update that connected the display. -/
def dDup : DrmDevice :=
  { mFd := 0, mCrtcs := [], mUsedCrtcs := 0, mDisplays := [(5, oldDisp)],
    mPrimaryDisplay := 0, mCallback := false }

/-- Resource-query result returning the already-registered connector 5. -/
def rDup : DrmResources := { crtcs := [9], connectors := [5] }

/-- Counterexample to C9: re-initializing with connector 5 already registered
does not overwrite the prior entry — C++ map insertion skips an existing key —
so the registry still holds `oldDisp`, not the freshly constructed entity. -/
theorem initializeDev_overwrite_cex :
    (initializeDev (some rDup) dDup).1 = true ∧
    (initializeDev (some rDup) dDup).2.mDisplays = [(5, oldDisp)] ∧
    oldDisp ≠ mkDisplay 5 := by decide

/-- C9 as amended: a second `initialize` re-queries and re-populates — the
pool is replaced by the newly returned engine list and a fresh entity is
inserted for every returned connector identifier not already registered —
but an entity constructed for a connector identifier that duplicates an
existing registry key is discarded and the prior entry is kept. -/
theorem initializeDev_reinit (r : DrmResources) (d : DrmDevice) (hfd : 0 ≤ d.mFd) :
    (initializeDev (some r) d).1 = true ∧
    (initializeDev (some r) d).2.mCrtcs = r.crtcs ∧
    (∀ kv, kv ∈ d.mDisplays → kv ∈ (initializeDev (some r) d).2.mDisplays) ∧
    (∀ c ∈ r.connectors, c ∉ d.mDisplays.map Prod.fst →
      (c, mkDisplay c) ∈ (initializeDev (some r) d).2.mDisplays) := by
  have hfd2 : ¬ d.mFd < 0 := not_lt.mpr hfd
  have he : (initializeDev (some r) d).2.mDisplays
      = r.connectors.foldl insertDisplay d.mDisplays := by
    simp [initializeDev, hfd2]
  refine ⟨by simp [initializeDev, hfd2], by simp [initializeDev, hfd2], ?_, ?_⟩
  · intro kv hkv
    rw [he]
    exact mem_foldl_insertDisplay _ hkv
  · intro c hc hnk
    rw [he]
    exact fresh_mem_foldl_insertDisplay _ hc hnk

/-- Witness for the amended C9: re-initializing `dDup` against a query that
returns connectors 5 (duplicate, kept as `oldDisp`) and 6 (fresh entity). -/
theorem initializeDev_reinit_witness :
    (initializeDev (some { crtcs := [9], connectors := [5, 6] }) dDup).1 = true ∧
    (initializeDev (some { crtcs := [9], connectors := [5, 6] }) dDup).2.mCrtcs = [9] ∧
    (∀ kv, kv ∈ dDup.mDisplays →
      kv ∈ (initializeDev (some { crtcs := [9], connectors := [5, 6] }) dDup).2.mDisplays) ∧
    (∀ c ∈ ({ crtcs := [9], connectors := [5, 6] } : DrmResources).connectors,
      c ∉ dDup.mDisplays.map Prod.fst →
      (c, mkDisplay c) ∈
        (initializeDev (some { crtcs := [9], connectors := [5, 6] }) dDup).2.mDisplays) :=
  initializeDev_reinit { crtcs := [9], connectors := [5, 6] } dDup (by decide)

/-! ### Primary-selection lemmas (C5, C6, C7) -/

lemma find?_of_filter_cons {α : Type} (p : α → Bool) (l : List α) (x : α)
    (xs : List α) (h : l.filter p = x :: xs) : l.find? p = some x := by
  induction l with
  | nil => cases h
  | cons a t ih =>
    by_cases ha : p a
    · rw [List.filter_cons_of_pos ha] at h
      injection h with h1 h2
      rw [List.find?_cons_of_pos _ ha, h1]
    · rw [List.filter_cons_of_neg ha] at h
      rw [List.find?_cons_of_neg _ ha]
      exact ih h

lemma enableSelect_internal_found {d : DrmDevice} {X : Nat × DrmDisplay}
    (hf : d.mDisplays.find? (fun p => p.2.connected && p.2.internal) = some X) :
    enableSelect d = ([X.2.id], { d with mPrimaryDisplay := X.2.id }) := by
  unfold enableSelect
  rw [hf]

lemma enableSelect_external_found {d : DrmDevice} {X : Nat × DrmDisplay}
    (h1 : d.mDisplays.find? (fun p => p.2.connected && p.2.internal) = none)
    (h2 : d.mDisplays.find? (fun p => p.2.connected) = some X) :
    enableSelect d = ([X.2.id], { d with mPrimaryDisplay := X.2.id }) := by
  unfold enableSelect
  rw [h1, h2]

lemma enableSelect_none {d : DrmDevice}
    (h1 : d.mDisplays.find? (fun p => p.2.connected && p.2.internal) = none)
    (h2 : d.mDisplays.find? (fun p => p.2.connected) = none) :
    enableSelect d = ([], d) := by
  unfold enableSelect
  rw [h1, h2]

lemma reportExternal_marked {d : DrmDevice} (h : d.mPrimaryDisplay ≠ 0) :
    reportExternal d
      = ((d.mDisplays.filter
            (fun p => p.2.id != d.mPrimaryDisplay && p.2.connected)).map
          (fun p => p.2.id),
        { d with mPrimaryDisplay := 0 }) := by
  unfold reportExternal
  rw [if_neg h]

lemma reportExternal_unmarked {d : DrmDevice} (h : d.mPrimaryDisplay = 0) :
    reportExternal d = ([], d) := by
  unfold reportExternal
  rw [if_pos h]

/-- Internal display of the C5 witness scenario. -/
def dispInt : DrmDisplay := { id := 2, connected := true, internal := true }

/-- Device of the C5 witness scenario: one disconnected output, one connected
internal output and one connected external output. -/
def dEn : DrmDevice :=
  { mFd := 3, mCrtcs := [7], mUsedCrtcs := 0,
    mDisplays := [(1, { id := 1, connected := false, internal := false }),
                  (2, dispInt),
                  (3, { id := 3, connected := true, internal := false })],
    mPrimaryDisplay := 0, mCallback := false }

/-- C5: when exactly one registered output is connected and internal after the
update pass, `enable` reports that output and only that output, and the
primary marker afterwards equals its identifier. -/
theorem enableDev_unique_internal (upd : DrmDisplay → DrmDisplay) (d : DrmDevice)
    (X : Nat × DrmDisplay)
    (h : (updateDev upd d).mDisplays.filter
        (fun p => p.2.connected && p.2.internal) = [X]) :
    (enableDev upd d).1 = [X.2.id] ∧
    (enableDev upd d).2.mPrimaryDisplay = X.2.id := by
  have hsel : enableDev upd d
      = ([X.2.id], { ({ updateDev upd d with mCallback := true } : DrmDevice) with
          mPrimaryDisplay := X.2.id }) := by
    unfold enableDev
    exact enableSelect_internal_found (find?_of_filter_cons _ _ _ _ h)
  rw [hsel]
  exact ⟨rfl, rfl⟩

/-- Witness for C5: on the three-output device `dEn`, whose only connected
internal output is `dispInt`, `enable` reports exactly `dispInt`. -/
theorem enableDev_unique_internal_witness :
    (enableDev id dEn).1 = [(2, dispInt).2.id] ∧
    (enableDev id dEn).2.mPrimaryDisplay = (2, dispInt).2.id :=
  enableDev_unique_internal id dEn (2, dispInt) (by decide)

/-- Connected external output A of the C6 witness scenario. -/
def dispA : DrmDisplay := { id := 1, connected := true, internal := false }

/-- Connected external output B of the C6 witness scenario. -/
def dispB : DrmDisplay := { id := 2, connected := true, internal := false }

/-- Device of the C6 witness scenario: no internal outputs, connected outputs
`dispA` before `dispB` in registry iteration order, plus a disconnected one. -/
def dTwo : DrmDevice :=
  { mFd := 3, mCrtcs := [7], mUsedCrtcs := 0,
    mDisplays := [(1, dispA), (2, dispB),
                  (3, { id := 3, connected := false, internal := false })],
    mPrimaryDisplay := 0, mCallback := false }

/-- C6: with no internal output and exactly the connected outputs A before B
in registry iteration order (their identifiers distinct, A's nonzero as every
connector identifier is), `enable` reports only A and marks A's identifier as
primary; a subsequent `reportExternal` reports only B — never A again — and
clears the primary marker. -/
theorem enableDev_reportExternal_two_connected
    (upd : DrmDisplay → DrmDisplay) (d : DrmDevice) (A B : Nat × DrmDisplay)
    (hni : ∀ p ∈ (updateDev upd d).mDisplays, p.2.internal = false)
    (hf : (updateDev upd d).mDisplays.filter (fun p => p.2.connected) = [A, B])
    (hA0 : A.2.id ≠ 0)
    (hAB : B.2.id ≠ A.2.id) :
    (enableDev upd d).1 = [A.2.id] ∧
    (enableDev upd d).2.mPrimaryDisplay = A.2.id ∧
    (reportExternal (enableDev upd d).2).1 = [B.2.id] ∧
    (reportExternal (enableDev upd d).2).2.mPrimaryDisplay = 0 := by
  have h1 : (updateDev upd d).mDisplays.find?
      (fun p => p.2.connected && p.2.internal) = none := by
    rw [List.find?_eq_none]
    intro x hx
    simp [hni x hx]
  have h2 : (updateDev upd d).mDisplays.find? (fun p => p.2.connected) = some A :=
    find?_of_filter_cons _ _ _ _ hf
  have hsel : enableDev upd d
      = ([A.2.id], { ({ updateDev upd d with mCallback := true } : DrmDevice) with
          mPrimaryDisplay := A.2.id }) := by
    unfold enableDev
    exact enableSelect_external_found h1 h2
  have hrep := reportExternal_marked
    (d := { ({ updateDev upd d with mCallback := true } : DrmDevice) with
        mPrimaryDisplay := A.2.id }) hA0
  have hb : (B.2.id != A.2.id) = true := bne_iff_ne.mpr hAB
  have ha : (A.2.id != A.2.id) = false := bne_self_eq_false A.2.id
  refine ⟨by rw [hsel], by rw [hsel], ?_, ?_⟩
  · rw [hsel]
    rw [hrep]
    show ((updateDev upd d).mDisplays.filter
        (fun p => p.2.id != A.2.id && p.2.connected)).map (fun p => p.2.id) = [B.2.id]
    rw [← List.filter_filter, hf]
    simp [List.filter_cons, ha, hb]
  · rw [hsel, hrep]

/-- Witness for C6: on the device `dTwo`, `enable` reports only `dispA`,
and a following `reportExternal` reports only `dispB` and clears the marker. -/
theorem enableDev_reportExternal_two_connected_witness :
    (enableDev id dTwo).1 = [(1, dispA).2.id] ∧
    (enableDev id dTwo).2.mPrimaryDisplay = (1, dispA).2.id ∧
    (reportExternal (enableDev id dTwo).2).1 = [(2, dispB).2.id] ∧
    (reportExternal (enableDev id dTwo).2).2.mPrimaryDisplay = 0 :=
  enableDev_reportExternal_two_connected id dTwo (1, dispA) (2, dispB)
    (by decide) (by decide) (by decide) (by decide)

/-- Device of the C7 witness scenario: two registered outputs, none connected,
primary marker absent. -/
def dNoC : DrmDevice :=
  { mFd := 3, mCrtcs := [7], mUsedCrtcs := 0,
    mDisplays := [(1, { id := 1, connected := false, internal := true }),
                  (2, { id := 2, connected := false, internal := false })],
    mPrimaryDisplay := 0, mCallback := false }

/-- C7: when no registered output is connected after the update pass and the
primary marker is absent, `enable` issues zero reports and leaves the marker
absent; and `reportExternal` on any state with an absent marker is a no-op
that issues no reports and changes no state. -/
theorem enableDev_no_connected (upd : DrmDisplay → DrmDisplay) (d : DrmDevice)
    (h : ∀ p ∈ (updateDev upd d).mDisplays, p.2.connected = false)
    (h0 : d.mPrimaryDisplay = 0) :
    (enableDev upd d).1 = [] ∧
    (enableDev upd d).2.mPrimaryDisplay = 0 ∧
    ∀ d2 : DrmDevice, d2.mPrimaryDisplay = 0 → reportExternal d2 = ([], d2) := by
  have h1 : (updateDev upd d).mDisplays.find?
      (fun p => p.2.connected && p.2.internal) = none := by
    rw [List.find?_eq_none]
    intro x hx
    simp [h x hx]
  have h2 : (updateDev upd d).mDisplays.find? (fun p => p.2.connected) = none := by
    rw [List.find?_eq_none]
    intro x hx
    simp [h x hx]
  have hsel : enableDev upd d = ([], { updateDev upd d with mCallback := true }) := by
    unfold enableDev
    exact enableSelect_none h1 h2
  refine ⟨by rw [hsel], ?_, fun d2 h2x => reportExternal_unmarked h2x⟩
  rw [hsel]
  exact h0

/-- Witness for C7: on the device `dNoC` with nothing connected, `enable`
reports nothing and the marker stays absent; `reportExternal` on the
marker-absent state `dNoC` itself is a no-op. -/
theorem enableDev_no_connected_witness :
    (enableDev id dNoC).1 = [] ∧
    (enableDev id dNoC).2.mPrimaryDisplay = 0 ∧
    ∀ d2 : DrmDevice, d2.mPrimaryDisplay = 0 → reportExternal d2 = ([], d2) :=
  enableDev_no_connected id dNoC (by decide) rfl

/-! ### Registry lookup (C10) -/

lemma find?_key_of_mem {l : List (Nat × DrmDisplay)} {c : Nat} {x : DrmDisplay}
    (hnd : (l.map Prod.fst).Nodup) (hx : (c, x) ∈ l) :
    l.find? (fun p => p.1 == c) = some (c, x) := by
  induction l with
  | nil => cases hx
  | cons a t ih =>
    rw [List.map_cons, List.nodup_cons] at hnd
    rcases List.mem_cons.mp hx with h | h
    · rw [← h]
      exact List.find?_cons_of_pos _ (beq_self_eq_true c)
    · have ha : (a.1 == c) = false := by
        rw [beq_eq_false_iff_ne]
        intro he
        exact hnd.1 (by rw [he]; exact List.mem_map_of_mem Prod.fst h)
      rw [List.find?_cons_of_neg _ (by simp [ha])]
      exact ih hnd.2 h

lemma getConnectedDisplay_some_iff (d : DrmDevice) (c : Nat)
    (hnd : (d.mDisplays.map Prod.fst).Nodup) (disp : DrmDisplay) :
    getConnectedDisplay d c = some disp ↔
      ((c, disp) ∈ d.mDisplays ∧ disp.connected = true) := by
  constructor
  · intro h
    unfold getConnectedDisplay at h
    cases hf : d.mDisplays.find? (fun p => p.1 == c) with
    | none =>
      rw [hf] at h
      cases h
    | some q =>
      rw [hf] at h
      dsimp only at h
      by_cases hq : q.2.connected
      · rw [if_pos hq] at h
        injection h with h1
        have hqb : (q.1 == c) = true := List.find?_some (p := fun y : Nat × DrmDisplay => y.1 == c) hf
        have hqc : q.1 = c := beq_iff_eq.mp hqb
        have hqm : q ∈ d.mDisplays := List.mem_of_find?_eq_some hf
        subst h1
        rw [← hqc]
        exact ⟨hqm, hq⟩
      · rw [if_neg hq] at h
        cases h
  · rintro ⟨hmem, hconn⟩
    unfold getConnectedDisplay
    rw [find?_key_of_mem hnd hmem]
    simp [hconn]

/-- C10: `getConnectedDisplay c` returns the registered output entity for `c`
exactly when `c` is a registry key and that entity is connected; in every
other case (key absent, or entity not connected) it returns null. It reads
but never writes the manager state: its embedding is a pure function of the
device that returns no updated state. -/
theorem getConnectedDisplay_spec (d : DrmDevice) (c : Nat)
    (hnd : (d.mDisplays.map Prod.fst).Nodup) :
    (∀ disp, getConnectedDisplay d c = some disp ↔
      ((c, disp) ∈ d.mDisplays ∧ disp.connected = true)) ∧
    (getConnectedDisplay d c = none ↔
      ∀ disp, (c, disp) ∈ d.mDisplays → disp.connected = false) := by
  refine ⟨getConnectedDisplay_some_iff d c hnd, ?_, ?_⟩
  · intro h disp hd
    cases hcc : disp.connected
    · rfl
    · have h2 := (getConnectedDisplay_some_iff d c hnd disp).mpr ⟨hd, hcc⟩
      rw [h2] at h
      cases h
  · intro h
    cases hg : getConnectedDisplay d c with
    | none => rfl
    | some disp =>
      rcases (getConnectedDisplay_some_iff d c hnd disp).mp hg with ⟨hd, hconn⟩
      rw [h disp hd] at hconn
      cases hconn

/-- Witness for C10: the lookup characterization instantiated on the
three-output device `dEn` at connector 2. -/
theorem getConnectedDisplay_spec_witness :
    (∀ disp, getConnectedDisplay dEn 2 = some disp ↔
      ((2, disp) ∈ dEn.mDisplays ∧ disp.connected = true)) ∧
    (getConnectedDisplay dEn 2 = none ↔
      ∀ disp, (2, disp) ∈ dEn.mDisplays → disp.connected = false) :=
  getConnectedDisplay_spec dEn 2 (by decide)
